import Mathlib

/-
Verification development for the "Animation Offset Duplicator + Partial Cycle"
Blender add-on (src/__init__.py).  The add-on's core logic is embedded
shallowly: Blender datablocks become Lean structures, the operators become
pure state-transforming functions, and Python floats are modelled as exact
rationals.  Host (Blender / Python stdlib) primitives that the add-on calls
but does not define — fcurve evaluation, keyframe insertion, random.uniform,
uuid4, math.radians, Euler→quaternion conversion — are modelled from the
spec and marked as such in their doc comments.
-/

namespace AOD

/-- A keyframe point of an fcurve: `co = (x, y)` plus left/right Bezier
handles, as read and written by the add-on
(`kp.co`, `kp.handle_left`, `kp.handle_right`). -/
structure KeyPt where
  x : ℚ
  y : ℚ
  hlx : ℚ
  hly : ℚ
  hrx : ℚ
  hry : ℚ
deriving DecidableEq

/-- An fcurve modifier as touched by `_apply_cycles_modifier`: its `type`
plus the CYCLES-modifier fields the add-on sets.  Non-CYCLES modifiers are
represented with a different `mtype` and are never updated. -/
structure CyclesMod where
  mtype : String
  mode_before : String
  mode_after : String
  cycles_before : ℤ
  cycles_after : ℤ
  use_influence : Bool
  influence : ℚ
  use_restricted_range : Bool
  frame_start : ℚ
  frame_end : ℚ
  blend_in : ℚ
  blend_out : ℚ
deriving DecidableEq

/-- A fresh CYCLES modifier as returned by `fcu.modifiers.new(type='CYCLES')`,
with Blender's default field values (modelled host behaviour; only the fields
the add-on does not immediately overwrite matter). -/
def newCyclesMod : CyclesMod :=
  { mtype := "CYCLES"
    mode_before := "NONE"
    mode_after := "NONE"
    cycles_before := 0
    cycles_after := 0
    use_influence := false
    influence := 1
    use_restricted_range := false
    frame_start := 0
    frame_end := 0
    blend_in := 0
    blend_out := 0 }

/-- An fcurve: its keyframe points and its modifier stack. -/
structure FCurve where
  points : List KeyPt
  modifiers : List CyclesMod
deriving DecidableEq

/-- An action datablock: a name and its fcurves. -/
structure Act where
  name : String
  fcurves : List FCurve
deriving DecidableEq

/-- Shapekey datablock (`obj.data.shape_keys`): only its animation action is
relevant.  `animation_data` and its `action` slot are collapsed into one
`Option` (the add-on only ever reads/writes the action through
`animation_data`, creating the slot on demand). -/
structure SKData where
  action : Option Act
deriving DecidableEq

/-- Object data (mesh etc.): only the shapekey datablock is relevant. -/
structure ObjData where
  shape_keys : Option SKData
deriving DecidableEq

/-- A Blender object, restricted to the fields the add-on reads or writes:
identity (`oid` models the datablock reference), name, the three custom
properties (`aod_group_id`, `aod_is_source`, `aod_index`), the object-level
action, the data block, and the delta transforms. -/
structure Obj where
  oid : ℕ
  name : String
  group : Option String
  isSource : Option Bool
  index : Option ℤ
  objAction : Option Act
  data : Option ObjData
  rotationMode : String
  deltaLocation : ℚ × ℚ × ℚ
  deltaRotationEuler : ℚ × ℚ × ℚ
  deltaRotationQuat : ℚ × ℚ × ℚ × ℚ
  deltaScale : ℚ × ℚ × ℚ
deriving DecidableEq

/-- A collection: name, the `aod_group_id` custom property, and its member
objects (by object id). -/
structure Coll where
  name : String
  group : Option String
  objIds : List ℕ
deriving DecidableEq

/-- The modelled Blender file/context state: object and collection pools,
the active object and the selection (by object id), plus counters supplying
fresh object ids and fresh uuid indices. -/
structure BState where
  nextOid : ℕ
  nextGid : ℕ
  objs : List Obj
  colls : List Coll
  active : Option ℕ
  selected : List ℕ
deriving DecidableEq

/-- The typed failures the operators report (`self.report({'ERROR'}, ...)`
followed by `{'CANCELLED'}`). -/
inductive AODErr where
  | noActiveEntity
  | noAnimation
  | invalidRange
deriving DecidableEq

/-- `_object_has_obj_action`. -/
def hasObjAction (o : Obj) : Bool :=
  o.objAction.isSome

/-- `_get_shapekey_data`. -/
def getShapekeyData (o : Obj) : Option SKData :=
  match o.data with
  | some d => d.shape_keys
  | none => none

/-- `_object_has_shapekey_action`. -/
def hasSkAction (o : Obj) : Bool :=
  match getShapekeyData o with
  | some sk => sk.action.isSome
  | none => false

/-- `_object_has_any_action`. -/
def hasAnyAction (o : Obj) : Bool :=
  hasObjAction o || hasSkAction o

/-- The per-point body of `_offset_action_keyframes_in_time`:
`kp.co.x += dx; kp.handle_left.x += dx; kp.handle_right.x += dx`. -/
def shiftPt (dx : ℚ) (p : KeyPt) : KeyPt :=
  { p with x := p.x + dx, hlx := p.hlx + dx, hrx := p.hrx + dx }

/-- The per-fcurve body of `_offset_action_keyframes_in_time`. -/
def shiftFCurve (dx : ℚ) (f : FCurve) : FCurve :=
  { f with points := f.points.map (shiftPt dx) }

/-- `_offset_action_keyframes_in_time`: no-op when `dx == 0`, else adds `dx`
to `co.x` and both handle x-coordinates of every keyframe point of every
fcurve.  (`fcu.update()` re-sorts points; a uniform translation preserves
order, so it is the identity here and is not modelled.) -/
def offsetActionKeyframesInTime (a : Act) (dx : ℚ) : Act :=
  if dx = 0 then a
  else { a with fcurves := a.fcurves.map (shiftFCurve dx) }

/-- The `AOD_Settings` property group (Python ints are `ℤ`/`ℕ`, floats `ℚ`).
`copies` has UI minimum 1 and is modelled as `ℕ`. -/
structure AODSettings where
  copies : ℕ
  frame_offset : ℤ
  use_instances : Bool
  mode_before : String
  mode_after : String
  cycles_before : ℤ
  cycles_after : ℤ
  apply_to_original : Bool
  use_influence : Bool
  influence : ℚ
  use_restricted_range : Bool
  frame_start : ℤ
  frame_end : ℤ
  blend_in : ℚ
  blend_out : ℚ
  add_randomness : Bool
  frame_jitter_min : ℤ
  frame_jitter_max : ℤ
  tx_min : ℚ
  tx_max : ℚ
  ty_min : ℚ
  ty_max : ℚ
  tz_min : ℚ
  tz_max : ℚ
  rx_min : ℚ
  rx_max : ℚ
  ry_min : ℚ
  ry_max : ℚ
  rz_min : ℚ
  rz_max : ℚ
  sx_min : ℚ
  sx_max : ℚ
  sy_min : ℚ
  sy_max : ℚ
  sz_min : ℚ
  sz_max : ℚ
deriving DecidableEq

/-- The field assignments `_apply_cycles_modifier` performs on the (found or
fresh) CYCLES modifier, for settings `s`. -/
def updateCyc (s : AODSettings) (m : CyclesMod) : CyclesMod :=
  { m with
    mode_before := s.mode_before
    mode_after := s.mode_after
    cycles_before := max 0 s.cycles_before
    cycles_after := max 0 s.cycles_after
    use_influence := s.use_influence
    influence := s.influence
    use_restricted_range := s.use_restricted_range
    frame_start := if s.use_restricted_range then (s.frame_start : ℚ) else m.frame_start
    frame_end := if s.use_restricted_range then (s.frame_end : ℚ) else m.frame_end
    blend_in := if s.use_restricted_range then max 0 s.blend_in else 0
    blend_out := if s.use_restricted_range then max 0 s.blend_out else 0 }

/-- The per-fcurve body of `_apply_cycles_modifier` on the modifier stack:
`next((m for m in fcu.modifiers if m.type == 'CYCLES'), None)` updates the
first CYCLES modifier in place; when none exists, `fcu.modifiers.new` appends
a fresh one at the end, which is then updated. -/
def applyCyclesList (s : AODSettings) : List CyclesMod → List CyclesMod
  | [] => [updateCyc s newCyclesMod]
  | m :: rest =>
      if m.mtype = "CYCLES" then updateCyc s m :: rest
      else m :: applyCyclesList s rest

/-- `_apply_cycles_modifier` on a whole action. -/
def applyCyclesAct (s : AODSettings) (a : Act) : Act :=
  { a with fcurves := a.fcurves.map fun f => { f with modifiers := applyCyclesList s f.modifiers } }

/-- The first CYCLES modifier of a modifier stack — the cycle-extrapolation
descriptor the configurator manages. -/
def cycDescriptor (f : FCurve) : Option CyclesMod :=
  f.modifiers.find? fun m => m.mtype == "CYCLES"

/-- Number of CYCLES modifiers on a modifier stack. -/
def countCycles (ms : List CyclesMod) : ℕ :=
  ms.countP fun m => m.mtype == "CYCLES"

/-- The `PCycleProps` property group of the Partial Cycle tool. -/
structure PProps where
  frame_start : ℤ
  frame_end : ℤ
  repeats : ℕ
  roll_mode : String
  repeat_mode : String
  clamp_to_integer_frames : Bool
deriving DecidableEq

/-- Python's built-in `round` (round-half-to-even), on exact rationals. -/
def pyRound (q : ℚ) : ℤ :=
  let f := ⌊q⌋
  let r := q - (f : ℚ)
  if r < 1 / 2 then f
  else if 1 / 2 < r then f + 1
  else if f % 2 = 0 then f else f + 1

/-- The value-shift computation of `PCYCLE_OT_duplicate_with_offset.execute`
for repeat index `i` (the `val_shift` assignment chain): `REPEAT → 0`;
`REPEAT_OFFSET → (i if POSTROLL else -i) * delta`;
`MIRROR → (-1 if (i % 2) else 1) * delta`; anything else `0`. -/
def valShift (repeatMode rollMode : String) (i : ℕ) (delta : ℚ) : ℚ :=
  if repeatMode = "REPEAT" then 0
  else if repeatMode = "REPEAT_OFFSET" then
    (if rollMode = "POSTROLL" then (i : ℚ) else -(i : ℚ)) * delta
  else if repeatMode = "MIRROR" then
    (if i % 2 = 0 then 1 else -1) * delta
  else 0

/-- One baked source tuple `(co.x, co.y, handle_left.x, handle_left.y,
handle_right.x, handle_right.y)` as snapshotted into `baked_src`. -/
abbrev SrcTuple := ℚ × ℚ × ℚ × ℚ × ℚ × ℚ

/-- One produced tuple `(val, hly, hry, frame, hlx, hrx)` as appended to
`baked_points`. -/
abbrev BakedTuple := ℚ × ℚ × ℚ × ℚ × ℚ × ℚ

/-- The inner production loop over `baked_src` for one repeat: time-shift the
x-coordinates, optionally round each independently to the nearest integer
(Python `round`), and add the value shift to the y-coordinates. -/
def bakePoints (src : List SrcTuple) (timeShift : ℤ) (valS : ℚ) (clamp : Bool) :
    List BakedTuple :=
  src.map fun t =>
    match t with
    | (x, y, hlx, hly, hrx, hry) =>
      let nx := x + (timeShift : ℚ)
      let hlx2 := hlx + (timeShift : ℚ)
      let hrx2 := hrx + (timeShift : ℚ)
      if clamp then
        (y + valS, hly + valS, hry + valS,
         (pyRound nx : ℚ), (pyRound hlx2 : ℚ), (pyRound hrx2 : ℚ))
      else
        (y + valS, hly + valS, hry + valS, nx, hlx2, hrx2)

/-- Modelled from the spec: the host's `fcu.keyframe_points.insert(frame,
value, options={'FAST'})` followed by the handle assignments of
`_insert_points`.  Insertion keeps the list frame-sorted; when the frame
coincides with an existing point the existing point is replaced (the
deterministic coincident-frame policy chosen for §4.3 step 6). -/
def insertKey : List KeyPt → KeyPt → List KeyPt
  | [], p => [p]
  | q :: rest, p =>
      if p.x = q.x then p :: rest
      else if p.x < q.x then p :: q :: rest
      else q :: insertKey rest p

/-- `_insert_points`: insert every baked tuple into the point list. -/
def insertAll (pts : List KeyPt) (baked : List BakedTuple) : List KeyPt :=
  baked.foldl
    (fun acc t =>
      match t with
      | (val, hly, hry, frame, hlx, hrx) =>
        insertKey acc { x := frame, y := val, hlx := hlx, hly := hly, hrx := hrx, hry := hry })
    pts

/-- Modelled from the spec: the host's `fcu.evaluate(frame)` — the curve's
value at a time under its existing interpolation.  Interpolation between
keyframes is modelled as linear; at a frame carrying a keyframe (the only
case the claims exercise) every interpolation basis yields the keyframe's
value, which this model reproduces.  Empty curve evaluates to `0`. -/
def evalPts : List KeyPt → ℚ → ℚ
  | [], _ => 0
  | [p], _ => p.y
  | p :: q :: rest, t =>
      if t ≤ p.x then p.y
      else if t ≤ q.x then p.y + (q.y - p.y) * (t - p.x) / (q.x - p.x)
      else evalPts (q :: rest) t

/-- `_evaluate_delta`: `evaluate(f_end) - evaluate(f_start)`.  (The modelled
evaluator is total, so the `except → 0.0` branch is unreachable here.) -/
def evaluateDelta (pts : List KeyPt) (fStart fEnd : ℚ) : ℚ :=
  evalPts pts fEnd - evalPts pts fStart

/-- `_collect_points_in_range`. -/
def collectPointsInRange (pts : List KeyPt) (fStart fEnd : ℚ) : List KeyPt :=
  pts.filter fun kp => fStart ≤ kp.x ∧ kp.x ≤ fEnd

/-- The `for i in range(1, s.repeats + 1)` loop of the Partial Cycle
operator, specialised to one fcurve: `i` is the current repeat index,
`remaining` counts repeats still to perform, `pts` is the current point
list.  Returns the final point list and the number of produced points. -/
def repeatLoop (p : PProps) (bakedSrc : List SrcTuple) (delta : ℚ) (len : ℤ) :
    ℕ → ℕ → List KeyPt → List KeyPt × ℕ
  | _, 0, pts => (pts, 0)
  | i, remaining + 1, pts =>
      let timeShift : ℤ := if p.roll_mode = "POSTROLL" then (i : ℤ) * len else -(i : ℤ) * len
      let vs := valShift p.repeat_mode p.roll_mode i delta
      let baked := bakePoints bakedSrc timeShift vs p.clamp_to_integer_frames
      let pts' := insertAll pts baked
      let next := repeatLoop p bakedSrc delta len (i + 1) remaining pts'
      (next.1, baked.length + next.2)

/-- The per-fcurve body of `PCYCLE_OT_duplicate_with_offset.execute`:
collect the source points of the normalized range, snapshot them, compute
the delta, then perform all repeats.  Returns the updated fcurve and the
number of inserted points. -/
def processFCurve (p : PProps) (f0 f1 len : ℤ) (fcu : FCurve) : FCurve × ℕ :=
  let srcPts := collectPointsInRange fcu.points (f0 : ℚ) (f1 : ℚ)
  if srcPts.isEmpty then (fcu, 0)
  else
    let bakedSrc : List SrcTuple :=
      srcPts.map fun kp => (kp.x, kp.y, kp.hlx, kp.hly, kp.hrx, kp.hry)
    let delta := evaluateDelta fcu.points (f0 : ℚ) (f1 : ℚ)
    let r := repeatLoop p bakedSrc delta len 1 p.repeats fcu.points
    ({ fcu with points := r.1 }, r.2)

/-- The Partial Cycle operator over one action: process every fcurve. -/
def processAct (p : PProps) (f0 f1 len : ℤ) (a : Act) : Act × ℕ :=
  let r := a.fcurves.foldl
    (fun acc fcu =>
      let pr := processFCurve p f0 f1 len fcu
      (acc.1 ++ [pr.1], acc.2 + pr.2))
    (([] : List FCurve), 0)
  ({ a with fcurves := r.1 }, r.2)

/-- The Partial Cycle operator over one selected object: `_iter_actions_for_object`
yields the object action and the shapekey action when present; each is
processed and written back.  An object without actions is skipped. -/
def processObj (p : PProps) (f0 f1 len : ℤ) (o : Obj) : Obj × ℕ :=
  if ¬ hasAnyAction o then (o, 0)
  else
    let (oa, n1) :=
      match o.objAction with
      | some a => let r := processAct p f0 f1 len a; (some r.1, r.2)
      | none => (none, 0)
    let (d', n2) :=
      match o.data with
      | some d =>
          match d.shape_keys with
          | some sk =>
              match sk.action with
              | some a =>
                  let r := processAct p f0 f1 len a
                  (some { d with shape_keys := some { sk with action := some r.1 } }, r.2)
              | none => (some d, 0)
          | none => (some d, 0)
      | none => (none, 0)
    ({ o with objAction := oa, data := d' }, n1 + n2)

/-- Replace every object with the given id in the pool (objects are distinct
datablocks, so in well-formed states this updates a single entry). -/
def replaceObj (objs : List Obj) (oid : ℕ) (o' : Obj) : List Obj :=
  objs.map fun o => if o.oid = oid then o' else o

/-- Look an object up by id. -/
def findObj (objs : List Obj) (oid : ℕ) : Option Obj :=
  objs.find? fun o => o.oid == oid

/-- `PCYCLE_OT_duplicate_with_offset.execute`: normalize the range with
`sorted`, fail on a zero-length range before touching anything, otherwise
process every selected object's actions and report the inserted count. -/
def pcycleExec (σ : BState) (p : PProps) : BState × Except AODErr ℕ :=
  let f0 := min p.frame_start p.frame_end
  let f1 := max p.frame_start p.frame_end
  let len := f1 - f0
  if len ≤ 0 then (σ, .error .invalidRange)
  else
    let r := σ.selected.foldl
      (fun acc oid =>
        match findObj acc.1 oid with
        | some o =>
            let pr := processObj p f0 f1 len o
            (replaceObj acc.1 oid pr.1, acc.2 + pr.2)
        | none => acc)
      (σ.objs, 0)
    ({ σ with objs := r.1 }, .ok r.2)

/-- `_clear_delta_transforms`: zero delta location, neutral delta rotation on
the channel selected by the rotation mode, unit delta scale. -/
def clearDeltaTransforms (o : Obj) : Obj :=
  let o1 := { o with deltaLocation := ((0 : ℚ), (0 : ℚ), (0 : ℚ)) }
  let o2 :=
    if o1.rotationMode = "QUATERNION" ∨ o1.rotationMode = "AXIS_ANGLE" then
      { o1 with deltaRotationQuat := ((1 : ℚ), (0 : ℚ), (0 : ℚ), (0 : ℚ)) }
    else
      { o1 with deltaRotationEuler := ((0 : ℚ), (0 : ℚ), (0 : ℚ)) }
  { o2 with deltaScale := ((1 : ℚ), (1 : ℚ), (1 : ℚ)) }

/-- `_rand_between`: order-normalize the pair, then draw uniformly.  The host
`random.uniform(lo, hi)` is modelled from the spec by an oracle stream
`u : ℕ → ℚ` of unit draws consumed at counter `k`: the draw is
`lo + (hi - lo) * u k`. -/
def randBetween (a b : ℚ) (u : ℕ → ℚ) (k : ℕ) : ℚ :=
  min a b + (max a b - min a b) * u k

/-- `_apply_random_deltas`: clear the delta transforms, then (when
randomness is on) draw translation, rotation, scale and frame jitter in the
source's order.  `radians` models `math.radians` and `e2q` models
`mathutils.Euler(...).to_quaternion()` (host real-number functions outside
the rational model; no claim depends on their values).  Returns the
perturbed object, the jitter, and the advanced draw counter. -/
def applyRandomDeltas (o : Obj) (s : AODSettings) (u : ℕ → ℚ) (radians : ℚ → ℚ)
    (e2q : ℚ × ℚ × ℚ → ℚ × ℚ × ℚ × ℚ) (k : ℕ) : Obj × ℚ × ℕ :=
  let o := clearDeltaTransforms o
  if ¬ s.add_randomness then (o, 0, k)
  else
    let tx := randBetween s.tx_min s.tx_max u k
    let ty := randBetween s.ty_min s.ty_max u (k + 1)
    let tz := randBetween s.tz_min s.tz_max u (k + 2)
    let o := { o with deltaLocation := (tx, ty, tz) }
    let rx := radians (randBetween s.rx_min s.rx_max u (k + 3))
    let ry := radians (randBetween s.ry_min s.ry_max u (k + 4))
    let rz := radians (randBetween s.rz_min s.rz_max u (k + 5))
    let o :=
      if o.rotationMode = "QUATERNION" ∨ o.rotationMode = "AXIS_ANGLE" then
        { o with deltaRotationQuat := e2q (rx, ry, rz) }
      else
        { o with deltaRotationEuler := (rx, ry, rz) }
    let sx := randBetween s.sx_min s.sx_max u (k + 6)
    let sy := randBetween s.sy_min s.sy_max u (k + 7)
    let sz := randBetween s.sz_min s.sz_max u (k + 8)
    let o := { o with deltaScale := (sx, sy, sz) }
    (o, randBetween (s.frame_jitter_min : ℚ) (s.frame_jitter_max : ℚ) u (k + 9), k + 10)

/-- The per-duplicate perturbation step of `AOD_OT_recreate.execute`
(`jitter = _apply_random_deltas(dup, s) if s.add_randomness else
(_clear_delta_transforms(dup) or 0.0)`). -/
def deltaAndJitter (o : Obj) (s : AODSettings) (u : ℕ → ℚ) (radians : ℚ → ℚ)
    (e2q : ℚ × ℚ × ℚ → ℚ × ℚ × ℚ × ℚ) (k : ℕ) : Obj × ℚ × ℕ :=
  if s.add_randomness then applyRandomDeltas o s u radians e2q k
  else (clearDeltaTransforms o, 0, k)

/-- Python truthiness of the stored group id (`if not gid`): `None` and the
empty string are falsy. -/
def gidTruthy : Option String → Bool
  | none => false
  | some g => g != ""

/-- `_ensure_group_for_source`: reuse a truthy stored group id; otherwise
allocate a fresh one (`uuidGen` models `uuid.uuid4()` — a host randomness
source — indexed by the state's uuid counter), stamp it and the is-source
marker on the source.  Returns the group id, the updated source object, and
the updated state. -/
def ensureGroupForSource (σ : BState) (src : Obj) (uuidGen : ℕ → String) :
    String × Obj × BState :=
  if gidTruthy src.group then (src.group.getD "", src, σ)
  else
    let gid := uuidGen σ.nextGid
    let src' := { src with group := some gid, isSource := some true }
    (gid, src',
     { σ with objs := replaceObj σ.objs src.oid src', nextGid := σ.nextGid + 1 })

/-- `_desired_collection_name_for_source`. -/
def desiredCollName (src : Obj) : String :=
  src.name ++ "_dups"

/-- `_get_collection_by_group_id`: first collection carrying the id. -/
def findCollByGid (colls : List Coll) (gid : String) : Option Coll :=
  colls.find? fun c => c.group == some gid

/-- Remove the first collection carrying the id (the one
`_hard_delete_collection` destroys). -/
def removeFirstCollByGid (gid : String) : List Coll → List Coll
  | [] => []
  | c :: rest => if c.group = some gid then rest else c :: removeFirstCollByGid gid rest

/-- `_get_collection_by_group_id` + `_hard_delete_collection`: destroy the
first collection tagged with the id together with all its member objects.
The per-item try/except fallbacks always succeed in the model (host
teardown modelled from the spec as reliable); the deleted count is the
number of pool objects removed. -/
def hardDeleteByGid (gid : String) (objs : List Obj) (colls : List Coll) :
    ℕ × List Obj × List Coll :=
  match findCollByGid colls gid with
  | none => (0, objs, colls)
  | some c =>
      let survivors := objs.filter fun o => !(c.objIds.contains o.oid)
      (objs.length - survivors.length, survivors, removeFirstCollByGid gid colls)

/-- Write the shapekey action slot of an object, when the object has
shapekey data. -/
def setSkAction (o : Obj) (a? : Option Act) : Obj :=
  match o.data with
  | some { shape_keys := some _ } => { o with data := some { shape_keys := some { action := a? } } }
  | _ => o

/-- The `apply_to_original` branch: run `_apply_cycles_modifier` on every
action `_iter_actions_for_object` yields for the source. -/
def applyCyclesToOwnActions (s : AODSettings) (o : Obj) : Obj :=
  let o1 := { o with objAction := o.objAction.map (applyCyclesAct s) }
  match getShapekeyData o1 with
  | some sk =>
      match sk.action with
      | some a => setSkAction o1 (some (applyCyclesAct s a))
      | none => o1
  | none => o1

/-- `f"{i:02d}"`. -/
def pad2 (i : ℕ) : String :=
  if i < 10 then "0" ++ toString i else toString i

/-- `f"{base}_dup_{i:02d}"`. -/
def dupName (base : String) (i : ℕ) : String :=
  base ++ "_dup_" ++ pad2 i

/-- Store the final (offset, cycles-configured) action copies on the
duplicate: the object-level action slot and, when a shapekey action copy
exists, the shapekey action slot. -/
def attachActions (d : Obj) (actObj actSk : Option Act) : Obj :=
  let d1 := { d with objAction := actObj }
  if actSk.isSome then setSkAction d1 actSk else d1

/-- One iteration of the duplicate-creation loop of
`AOD_OT_recreate.execute`: clone the source (`src.copy()` keeps all fields
including custom properties; sharing vs copying `src.data` coincide under
value semantics), stamp group id and index, copy and rename the base
actions, apply the perturbation step, time-shift the copied actions by
`dx = frame_offset * i + jitter` when nonzero, and apply the cycles
modifier to both copied actions.  Returns the finished duplicate and the
advanced draw counter.  `dupBase` is the pre-perturbation part: the clone
with fresh id and name, stamped tags, and the renamed action copies
assigned; it returns the clone and the two action copies. -/
def dupBase (src : Obj) (baseObj baseSk : Option Act) (gid : String) (i oid : ℕ) :
    Obj × Option Act × Option Act :=
  let dup := { src with oid := oid, name := dupName src.name i }
  let dup := { dup with group := some gid, index := some (i : ℤ) }
  let actObj := baseObj.map fun a => { a with name := dupName a.name i }
  let dup := { dup with objAction := actObj }
  let actSk :=
    match baseSk, getShapekeyData dup with
    | some a, some _ => some { a with name := dupName a.name i }
    | _, _ => none
  let dup := if actSk.isSome then setSkAction dup actSk else dup
  (dup, actObj, actSk)

/-- The rest of the loop iteration: perturbation step on the clone, time
shift of the copied actions by `dx = frame_offset * i + jitter` when
nonzero, cycles configuration of both copies, and final assignment. -/
def buildDup (src : Obj) (baseObj baseSk : Option Act) (s : AODSettings) (gid : String)
    (u : ℕ → ℚ) (radians : ℚ → ℚ) (e2q : ℚ × ℚ × ℚ → ℚ × ℚ × ℚ × ℚ)
    (i : ℕ) (k : ℕ) (oid : ℕ) : Obj × ℕ :=
  let db := dupBase src baseObj baseSk gid i oid
  let djk := deltaAndJitter db.1 s u radians e2q k
  let jitter := djk.2.1
  let k' := djk.2.2
  let dx := (s.frame_offset : ℚ) * (i : ℚ) + jitter
  let actObj := if dx ≠ 0 then db.2.1.map (fun a => offsetActionKeyframesInTime a dx) else db.2.1
  let actSk := if dx ≠ 0 then db.2.2.map (fun a => offsetActionKeyframesInTime a dx) else db.2.2
  let actObj := actObj.map (applyCyclesAct s)
  let actSk := actSk.map (applyCyclesAct s)
  (attachActions djk.1 actObj actSk, k')

/-- The `for i in range(1, s.copies + 1)` loop: `i` is the current index,
`remaining` the iterations left, `k` the draw counter, `oid` the next fresh
object id. -/
def buildDups (src : Obj) (baseObj baseSk : Option Act) (s : AODSettings) (gid : String)
    (u : ℕ → ℚ) (radians : ℚ → ℚ) (e2q : ℚ × ℚ × ℚ → ℚ × ℚ × ℚ × ℚ) :
    ℕ → ℕ → ℕ → ℕ → List Obj
  | _, 0, _, _ => []
  | i, remaining + 1, k, oid =>
      let d := buildDup src baseObj baseSk s gid u radians e2q i k oid
      d.1 :: buildDups src baseObj baseSk s gid u radians e2q (i + 1) remaining d.2 (oid + 1)

/-- `AOD_OT_recreate.execute`: fail without an active or animated source
before any mutation; ensure the group id; destroy any prior collection for
the id (with its members); create the fresh collection; optionally apply
cycles to the source's own actions; build the duplicates; report
`(deleted, created)`.  `_cleanup_orphan_actions` only touches the global
action pool, which is modelled inline on its owners, so it is the identity
here.  `recreateCore` is the body past the precondition checks, for a found
active source `src` with id `aid`. -/
def recreateCore (σ : BState) (s : AODSettings) (uuidGen : ℕ → String) (u : ℕ → ℚ)
    (radians : ℚ → ℚ) (e2q : ℚ × ℚ × ℚ → ℚ × ℚ × ℚ × ℚ) (aid : ℕ) (src : Obj) :
    BState × Except AODErr (ℕ × ℕ) :=
  let skHasAct := hasSkAction src
  let eg := ensureGroupForSource σ src uuidGen
  let gid := eg.1
  let src1 := eg.2.1
  let σ1 := eg.2.2
  let hd := hardDeleteByGid gid σ1.objs σ1.colls
  let deleted := hd.1
  let objs2 := hd.2.1
  let colls2 := hd.2.2
  let src2 := if s.apply_to_original then applyCyclesToOwnActions s src1 else src1
  let objs3 := if s.apply_to_original then replaceObj objs2 aid src2 else objs2
  let baseObj := src2.objAction
  let baseSk := if skHasAct then (getShapekeyData src2).bind (fun sk => sk.action) else none
  let dups := buildDups src2 baseObj baseSk s gid u radians e2q 1 s.copies 0 σ.nextOid
  let newColl : Coll :=
    { name := desiredCollName src, group := some gid, objIds := dups.map (fun d => d.oid) }
  ({ σ1 with
      objs := objs3 ++ dups
      colls := colls2 ++ [newColl]
      nextOid := σ.nextOid + s.copies },
   .ok (deleted, s.copies))

/-- `AOD_OT_recreate.execute`: the precondition checks (active object,
any animation) fail before any mutation; otherwise run `recreateCore`. -/
def recreate (σ : BState) (s : AODSettings) (uuidGen : ℕ → String) (u : ℕ → ℚ)
    (radians : ℚ → ℚ) (e2q : ℚ × ℚ × ℚ → ℚ × ℚ × ℚ × ℚ) :
    BState × Except AODErr (ℕ × ℕ) :=
  match σ.active with
  | none => (σ, .error .noActiveEntity)
  | some aid =>
    match findObj σ.objs aid with
    | none => (σ, .error .noActiveEntity)
    | some src =>
      if ¬ hasAnyAction src then (σ, .error .noAnimation)
      else recreateCore σ s uuidGen u radians e2q aid src

/-- `del ob[k]` for the three tag keys of `AOD_OT_done.execute`'s loop. -/
def clearTags (o : Obj) : Obj :=
  { o with group := none, isSource := none, index := none }

/-- `AOD_OT_done.execute`: resolve the group id from the active object's
tag (possibly `None`), strip the three tags from every object whose stored
tag equals it, then re-run the two guarded deletions on the active object. -/
def doneExec (σ : BState) : BState × Except AODErr Unit :=
  match σ.active with
  | none => (σ, .error .noActiveEntity)
  | some aid =>
    match findObj σ.objs aid with
    | none => (σ, .error .noActiveEntity)
    | some act =>
      let gid := act.group
      let objs1 := σ.objs.map fun ob => if ob.group = gid then clearTags ob else ob
      let objs2 := objs1.map fun ob =>
        if ob.oid = aid then
          let ob1 := if gidTruthy gid && ob.group.isSome then { ob with group := none } else ob
          if ob1.isSource.isSome then { ob1 with isSource := none } else ob1
        else ob
      ({ σ with objs := objs2 }, .ok ())

/-- Neutral delta perturbation: zero delta translation, neutral delta
rotation on the channel the rotation mode selects, unit delta scale. -/
def neutralDeltas (o : Obj) : Prop :=
  o.deltaLocation = (0, 0, 0) ∧ o.deltaScale = (1, 1, 1) ∧
    ((o.rotationMode = "QUATERNION" ∨ o.rotationMode = "AXIS_ANGLE") →
      o.deltaRotationQuat = (1, 0, 0, 0)) ∧
    (¬ (o.rotationMode = "QUATERNION" ∨ o.rotationMode = "AXIS_ANGLE") →
      o.deltaRotationEuler = (0, 0, 0))

instance (o : Obj) : Decidable (neutralDeltas o) := by
  unfold neutralDeltas; infer_instance

/-- The keyframe points of the first fcurve of the object-level action of
the object with the given id, `[]` when any link is missing (a convenience
accessor for concrete runs). -/
def fcurvePointsAt (σ : BState) (oid : ℕ) : List KeyPt :=
  match findObj σ.objs oid with
  | some o =>
      match o.objAction with
      | some a =>
          match a.fcurves with
          | f :: _ => f.points
          | [] => []
      | none => []
  | none => []

/- Concrete example data used by counterexamples and witnesses. -/

/-- Keyframe at frame 1, value 0 (concrete handles). -/
def kpEx1 : KeyPt := ⟨1, 0, 0, 1, 2, 2⟩

/-- Keyframe at frame 5, value 10 (concrete handles). -/
def kpEx2 : KeyPt := ⟨5, 10, 4, 10, 6, 10⟩

/-- An action with one fcurve holding the two keyframes and no modifiers. -/
def actEx : Act := { name := "CubeAction", fcurves := [{ points := [kpEx1, kpEx2], modifiers := [] }] }

/-- A concrete object carrying `actEx` and non-neutral delta transforms. -/
def objEx : Obj :=
  { oid := 0
    name := "Cube"
    group := none
    isSource := none
    index := none
    objAction := some actEx
    data := none
    rotationMode := "XYZ"
    deltaLocation := (3, 3, 3)
    deltaRotationEuler := (1, 1, 1)
    deltaRotationQuat := (1, 0, 0, 0)
    deltaScale := (2, 2, 2) }

/-- A concrete file state: `objEx` alone, active and selected. -/
def stEx : BState :=
  { nextOid := 1, nextGid := 0, objs := [objEx], colls := [], active := some 0, selected := [0] }

/-- Concrete Partial Cycle properties: range `[1, 5]`, one repeat,
post-roll, repeat-with-offset, integer clamping. -/
def ppEx : PProps :=
  { frame_start := 1
    frame_end := 5
    repeats := 1
    roll_mode := "POSTROLL"
    repeat_mode := "REPEAT_OFFSET"
    clamp_to_integer_frames := true }

/-- `ppEx` with repeat mode Mirror. -/
def ppExMirror : PProps := { ppEx with repeat_mode := "MIRROR" }

/-- `ppEx` with a zero-length range. -/
def ppExZero : PProps := { ppEx with frame_start := 3, frame_end := 3 }

/-- Concrete add-on settings: 3 copies, frame offset 10, randomness off but
with non-trivial perturbation ranges, restricted range off but with stale
nonzero blend values. -/
def sEx : AODSettings :=
  { copies := 3
    frame_offset := 10
    use_instances := true
    mode_before := "NONE"
    mode_after := "REPEAT"
    cycles_before := 0
    cycles_after := 0
    apply_to_original := false
    use_influence := false
    influence := 1
    use_restricted_range := false
    frame_start := 1
    frame_end := 250
    blend_in := 5
    blend_out := 7
    add_randomness := false
    frame_jitter_min := 2
    frame_jitter_max := 6
    tx_min := 4, tx_max := 9, ty_min := 0, ty_max := 0, tz_min := 0, tz_max := 0
    rx_min := 0, rx_max := 0, ry_min := 0, ry_max := 0, rz_min := 0, rz_max := 0
    sx_min := 1, sx_max := 1, sy_min := 1, sy_max := 1, sz_min := 1, sz_max := 1 }

/-- Concrete uuid oracle. -/
def ugEx : ℕ → String := fun n => "gid" ++ toString n

/-- Concrete unit-draw oracle. -/
def uEx : ℕ → ℚ := fun _ => 1 / 2

/-- Concrete degree-to-radian oracle. -/
def radEx : ℚ → ℚ := fun q => q * 7 / 400

/-- Concrete Euler-to-quaternion oracle. -/
def e2qEx : ℚ × ℚ × ℚ → ℚ × ℚ × ℚ × ℚ := fun _ => (1, 0, 0, 0)

/-- A CYCLES modifier carrying stale nonzero blend and range values. -/
def modStale : CyclesMod :=
  { newCyclesMod with
    use_restricted_range := true
    frame_start := 11
    frame_end := 22
    blend_in := 9
    blend_out := 9 }

/-- An action whose single fcurve already carries two CYCLES modifiers. -/
def actExTwoCyc : Act :=
  { name := "TwoCyc", fcurves := [{ points := [], modifiers := [modStale, newCyclesMod] }] }

/-- An action whose single fcurve carries one stale CYCLES modifier. -/
def actExOneCyc : Act :=
  { name := "OneCyc", fcurves := [{ points := [], modifiers := [modStale] }] }

/-- An action whose single fcurve carries no modifiers. -/
def actExNoCyc : Act :=
  { name := "NoCyc", fcurves := [{ points := [], modifiers := [] }] }

/-- `objEx` stripped of its animation. -/
def objExNoAnim : Obj := { objEx with objAction := none }

/-- A state whose active object has no animation on either channel. -/
def stExNoAnim : BState := { stEx with objs := [objExNoAnim] }

/-- An untagged object carrying stale is-source/index tags. -/
def objExStaleTags : Obj :=
  { objEx with oid := 7, name := "X", isSource := some true, index := some 3 }

/-- A group-tagged object. -/
def objExTagged : Obj :=
  { objEx with oid := 8, name := "Y", group := some "g", isSource := some true, index := some 4 }

/-- A state for the Done operator: the active object carries no group tag. -/
def stExDone : BState := { stEx with objs := [objEx, objExStaleTags, objExTagged] }

/- Theorems. -/

lemma shiftPt_zero (p : KeyPt) : shiftPt 0 p = p := by
  cases p; simp [shiftPt]

lemma shiftFCurve_zero (f : FCurve) : shiftFCurve 0 f = f := by
  have h : shiftPt (0 : ℚ) = fun p => p := funext shiftPt_zero
  cases f; simp [shiftFCurve, h]

lemma shiftPt_cancel (dx : ℚ) (p : KeyPt) : shiftPt (-dx) (shiftPt dx p) = p := by
  cases p; simp [shiftPt]

lemma shiftFCurve_cancel (dx : ℚ) (f : FCurve) : shiftFCurve (-dx) (shiftFCurve dx f) = f := by
  cases f with
  | mk pts ms =>
    simp only [shiftFCurve, List.map_map]
    rw [show shiftPt (-dx) ∘ shiftPt dx = fun p => p from funext fun p => shiftPt_cancel dx p]
    simp

/-- C6: time-shifting is an exact translation: the shifted action's fcurves
are the pointwise translations of the originals, the translation adds `dx`
to the frame and both handle x-coordinates and leaves values and handle
y-coordinates unchanged, shifting by `dx` then `-dx` restores the action
exactly, and shifting by `0` is the identity. -/
theorem c6_time_shift_translation_exact :
    ∀ (a : Act) (dx : ℚ),
      (offsetActionKeyframesInTime a dx).fcurves = a.fcurves.map (shiftFCurve dx) ∧
      (∀ p : KeyPt, shiftPt dx p =
        ⟨p.x + dx, p.y, p.hlx + dx, p.hly, p.hrx + dx, p.hry⟩) ∧
      offsetActionKeyframesInTime (offsetActionKeyframesInTime a dx) (-dx) = a ∧
      offsetActionKeyframesInTime a 0 = a := by
  intro a dx
  refine ⟨?_, ?_, ?_, ?_⟩
  · by_cases h : dx = 0
    · subst h
      have h2 : shiftFCurve (0 : ℚ) = fun f => f := funext shiftFCurve_zero
      simp [offsetActionKeyframesInTime, h2]
    · simp [offsetActionKeyframesInTime, h]
  · intro p; cases p; simp [shiftPt]
  · by_cases h : dx = 0
    · subst h; simp [offsetActionKeyframesInTime]
    · have hn : -dx ≠ 0 := neg_ne_zero.mpr h
      cases a with
      | mk nm fcs =>
        simp only [offsetActionKeyframesInTime, if_neg h, if_neg hn, List.map_map]
        rw [show shiftFCurve (-dx) ∘ shiftFCurve dx = fun f => f from
          funext fun f => shiftFCurve_cancel dx f]
        simp
  · simp [offsetActionKeyframesInTime]

/-- C7: a zero-length normalized range makes the Partial Cycle operator
fail with the invalid-range error and leave the whole state unchanged. -/
theorem c7_zero_length_range_error :
    ∀ (σ : BState) (p : PProps), p.frame_start = p.frame_end →
      pcycleExec σ p = (σ, .error .invalidRange) := by
  intro σ p h
  simp [pcycleExec, h]

/-- Witness for C7 on concrete data. -/
theorem c7_witness :
    pcycleExec stEx ppExZero = (stEx, .error .invalidRange) :=
  c7_zero_length_range_error stEx ppExZero (by decide)

/-- C1 (counterexample): with `delta = 10`, the value shift the code applies
at repeat `i = 1` (odd) is `-10`, not `+10` as claimed; on a concrete Mirror
run the produced points' values are shifted by `-delta`. -/
theorem c1_counterexample :
    valShift "MIRROR" "POSTROLL" 1 10 = -10 ∧
    ¬ valShift "MIRROR" "POSTROLL" 1 10 = 10 ∧
    ((fcurvePointsAt (pcycleExec stEx ppExMirror).1 0).map fun p => (p.x, p.y)) =
      [(1, 0), (5, -10), (9, 0)] := by
  with_unfolding_all decide

/-- C1 (amended): in Mirror mode the value shift of repeat `i` is
`delta * (-1)` when `i` is odd and `delta * (+1)` when `i` is even
(for either roll mode), and each produced point's value is the snapshotted
value plus the value shift. -/
theorem c1_mirror_value_shift :
    (∀ (roll : String) (i : ℕ) (delta : ℚ),
        valShift "MIRROR" roll i delta = if i % 2 = 0 then delta else -delta) ∧
    (∀ (src : List SrcTuple) (ts : ℤ) (vs : ℚ) (c : Bool),
        (bakePoints src ts vs c).map (fun t => t.1) = src.map (fun t => t.2.1 + vs)) := by
  constructor
  · intro roll i delta
    by_cases h : i % 2 = 0 <;> simp [valShift, h]
  · intro src ts vs c
    simp only [bakePoints, List.map_map]
    apply List.map_congr_left
    rintro ⟨x, y, hlx, hly, hrx, hry⟩ _
    cases c <;> simp

/-- C2 (counterexample): on the claimed scenario the operator inserts its
two points at frames 5 and 9 (values 10 and 20), and no point sits at
frame 6 or frame 10 afterwards. -/
theorem c2_counterexample :
    (pcycleExec stEx ppEx).2 = .ok 2 ∧
    ((fcurvePointsAt (pcycleExec stEx ppEx).1 0).map fun p => (p.x, p.y)) =
      [(1, 0), (5, 10), (9, 20)] ∧
    ¬ ((6 : ℚ) ∈ (fcurvePointsAt (pcycleExec stEx ppEx).1 0).map fun p => p.x) ∧
    ¬ ((10 : ℚ) ∈ (fcurvePointsAt (pcycleExec stEx ppEx).1 0).map fun p => p.x) := by
  refine ⟨rfl, ?_, ?_, ?_⟩ <;> with_unfolding_all decide

lemma updateCyc_mtype (s : AODSettings) (m : CyclesMod) : (updateCyc s m).mtype = m.mtype :=
  rfl

lemma updateCyc_idem (s : AODSettings) (m : CyclesMod) :
    updateCyc s (updateCyc s m) = updateCyc s m := by
  by_cases h : s.use_restricted_range <;> simp [updateCyc, h]

lemma applyCyclesList_idem (s : AODSettings) (ms : List CyclesMod) :
    applyCyclesList s (applyCyclesList s ms) = applyCyclesList s ms := by
  induction ms with
  | nil => simp [applyCyclesList, updateCyc_mtype, newCyclesMod, updateCyc_idem]
  | cons m rest ih =>
    by_cases h : m.mtype = "CYCLES"
    · simp [applyCyclesList, h, updateCyc_mtype, updateCyc_idem]
    · simp [applyCyclesList, h, ih]

lemma applyCyclesAct_idem (s : AODSettings) (a : Act) :
    applyCyclesAct s (applyCyclesAct s a) = applyCyclesAct s a := by
  cases a with
  | mk nm fcs =>
    simp only [applyCyclesAct, List.map_map]
    refine congrArg _ (List.map_congr_left ?_)
    intro f _
    cases f with
    | mk pts ms => simp [Function.comp, applyCyclesList_idem]

lemma countCycles_applyCyclesList (s : AODSettings) (ms : List CyclesMod) :
    countCycles (applyCyclesList s ms) = if countCycles ms = 0 then 1 else countCycles ms := by
  induction ms with
  | nil => simp [applyCyclesList, countCycles, updateCyc_mtype, newCyclesMod]
  | cons m rest ih =>
    by_cases h : m.mtype = "CYCLES"
    · simp [applyCyclesList, countCycles, List.countP_cons, h, updateCyc_mtype]
    · simp only [applyCyclesList, if_neg h, countCycles, List.countP_cons] at *
      simp only [show (m.mtype == "CYCLES") = false by simpa using h]
      simpa using ih

lemma applyCyclesList_descriptor (s : AODSettings) (ms : List CyclesMod) :
    ∃ m, (applyCyclesList s ms).find? (fun m => m.mtype == "CYCLES") = some m ∧
      m.blend_in = (if s.use_restricted_range then max 0 s.blend_in else 0) ∧
      m.blend_out = (if s.use_restricted_range then max 0 s.blend_out else 0) := by
  induction ms with
  | nil =>
    refine ⟨updateCyc s newCyclesMod, ?_, rfl, rfl⟩
    simp [applyCyclesList, List.find?, updateCyc_mtype, newCyclesMod]
  | cons m rest ih =>
    by_cases h : m.mtype = "CYCLES"
    · refine ⟨updateCyc s m, ?_, rfl, rfl⟩
      simp [applyCyclesList, h, List.find?, updateCyc_mtype]
    · obtain ⟨m', hm', hin, hout⟩ := ih
      refine ⟨m', ?_, hin, hout⟩
      simp only [applyCyclesList, if_neg h, List.find?]
      simp only [show (m.mtype == "CYCLES") = false by simpa using h]
      exact hm'

/-- C4 (counterexample): a curve already carrying two cycle descriptors still
carries two after `configure` — the claimed "always exactly one descriptor"
fails on that input. -/
theorem c4_counterexample :
    ((applyCyclesAct sEx actExTwoCyc).fcurves.map fun f => countCycles f.modifiers) = [2] ∧
    (2 : ℕ) ≠ 1 := by
  refine ⟨?_, by decide⟩
  with_unfolding_all decide

/-- C4 (amended): `configure` is idempotent on every curve set; every curve
ends with at least one cycle descriptor (created when absent, the first one
updated in place, never duplicated); and when every curve starts with at
most one descriptor, every curve ends with exactly one. -/
theorem c4_configure_idempotent :
    (∀ (s : AODSettings) (a : Act), applyCyclesAct s (applyCyclesAct s a) = applyCyclesAct s a) ∧
    (∀ (s : AODSettings) (a : Act), ∀ f ∈ (applyCyclesAct s a).fcurves,
        1 ≤ countCycles f.modifiers) ∧
    (∀ (s : AODSettings) (a : Act), (∀ f ∈ a.fcurves, countCycles f.modifiers ≤ 1) →
        ((applyCyclesAct s a).fcurves.map fun f => countCycles f.modifiers) =
          List.replicate a.fcurves.length 1) := by
  refine ⟨applyCyclesAct_idem, ?_, ?_⟩
  · intro s a f hf
    simp only [applyCyclesAct, List.mem_map] at hf
    obtain ⟨f0, _, rfl⟩ := hf
    rw [show ({ f0 with modifiers := applyCyclesList s f0.modifiers } : FCurve).modifiers =
      applyCyclesList s f0.modifiers from rfl]
    rw [countCycles_applyCyclesList]
    by_cases h : countCycles f0.modifiers = 0
    · simp [h]
    · simp only [if_neg h]
      omega
  · intro s a hle
    rw [List.eq_replicate_iff]
    constructor
    · simp [applyCyclesAct]
    · intro b hb
      simp only [applyCyclesAct, List.map_map, List.mem_map] at hb
      obtain ⟨f0, hf0, rfl⟩ := hb
      have h1 := hle f0 hf0
      show countCycles (applyCyclesList s f0.modifiers) = 1
      rw [countCycles_applyCyclesList]
      rcases Nat.lt_or_ge (countCycles f0.modifiers) 1 with h | h
      · simp [Nat.lt_one_iff.mp h]
      · have : countCycles f0.modifiers = 1 := le_antisymm h1 h
        simp [this]

/-- Witness for C4's amended theorem on concrete data (a curve with one
stale descriptor ends with exactly one). -/
theorem c4_witness :
    ((applyCyclesAct sEx actExOneCyc).fcurves.map fun f => countCycles f.modifiers) =
      List.replicate actExOneCyc.fcurves.length 1 :=
  c4_configure_idempotent.2.2 sEx actExOneCyc (by with_unfolding_all decide)

/-- C5: with `use_restricted_range = false`, after `configure` every curve's
cycle descriptor exists and carries `blend_in = blend_out = 0`, whatever the
stored blend values were before the call. -/
theorem c5_restricted_off_zero_blends :
    ∀ (s : AODSettings) (a : Act), s.use_restricted_range = false →
      ((applyCyclesAct s a).fcurves.map fun f =>
          (cycDescriptor f).map fun m => (m.blend_in, m.blend_out)) =
        List.replicate a.fcurves.length (some (0, 0)) := by
  intro s a hres
  rw [List.eq_replicate_iff]
  constructor
  · simp [applyCyclesAct]
  · intro b hb
    simp only [applyCyclesAct, List.map_map, List.mem_map] at hb
    obtain ⟨f0, _, rfl⟩ := hb
    obtain ⟨m, hm, hin, hout⟩ := applyCyclesList_descriptor s f0.modifiers
    simp only [Function.comp, cycDescriptor]
    rw [hm]
    simp [hin, hout, hres]

/-- Witness for C5 on concrete data (stale nonzero blends zeroed). -/
theorem c5_witness :
    ((applyCyclesAct sEx actExOneCyc).fcurves.map fun f =>
        (cycDescriptor f).map fun m => (m.blend_in, m.blend_out)) =
      List.replicate actExOneCyc.fcurves.length (some (0, 0)) :=
  c5_restricted_off_zero_blends sEx actExOneCyc rfl

/-- C2 (amended): the scenario inserts exactly two points, at frame 5 with
value 10 (replacing the coincident existing keyframe) and at frame 9 with
value 20. -/
theorem c2_partial_repeat_concrete :
    (pcycleExec stEx ppEx).2 = .ok 2 ∧
    fcurvePointsAt (pcycleExec stEx ppEx).1 0 =
      [⟨1, 0, 0, 1, 2, 2⟩, ⟨5, 10, 4, 11, 6, 12⟩, ⟨9, 20, 8, 20, 10, 20⟩] := by
  refine ⟨rfl, ?_⟩
  with_unfolding_all decide

lemma findObj_some {l : List Obj} {aid : ℕ} {a : Obj} (h : findObj l aid = some a) :
    a.oid = aid ∧ a ∈ l := by
  have h1 := List.find?_some h
  have h2 := List.mem_of_find?_eq_some h
  exact ⟨by simpa using h1, h2⟩

lemma findObj_unique (aid : ℕ) (a o : Obj) :
    ∀ l : List Obj, findObj l aid = some a → (l.map fun o => o.oid).Nodup →
      o ∈ l → o.oid = aid → o = a := by
  intro l
  induction l with
  | nil => intro _ _ ho; cases ho
  | cons y ys ih =>
    intro h hnd ho hoid
    rw [List.map_cons, List.nodup_cons] at hnd
    obtain ⟨hy_notin, hnd'⟩ := hnd
    simp only [findObj, List.find?] at h
    rcases List.mem_cons.mp ho with rfl | ho'
    · have hb : (o.oid == aid) = true := by simpa using hoid
      rw [hb] at h
      simpa using h
    · rcases hb : (y.oid == aid) with _ | _
      · rw [hb] at h
        exact ih h hnd' ho' hoid
      · exfalso
        have hy : y.oid = aid := by simpa using hb
        exact hy_notin (by rw [hy, ← hoid]; exact List.mem_map_of_mem _ ho')

lemma clearTags_oid (o : Obj) : (clearTags o).oid = o.oid := rfl

/-- C10: Finish with an active object that carries no group-id tag reports
success, strips the is-source and index tags from exactly the objects that
also carry no group-id tag (clearing the absent group tag is a no-op on
them), and leaves everything else — collections, curves, the objects
themselves — untouched. -/
theorem c10_done_untagged_active :
    ∀ (σ : BState) (aid : ℕ) (a : Obj),
      σ.active = some aid →
      findObj σ.objs aid = some a →
      a.group = none →
      (σ.objs.map fun o => o.oid).Nodup →
      doneExec σ =
        ({ σ with objs := σ.objs.map fun o => if o.group = none then clearTags o else o },
         .ok ()) := by
  intro σ aid a h1 h2 h3 hnd
  simp only [doneExec, h1, h2, h3]
  congr 1
  congr 1
  rw [List.map_map]
  refine List.map_congr_left ?_
  intro o ho
  simp only [Function.comp]
  by_cases hoid : o.oid = aid
  · have hoa : o = a := findObj_unique aid a o σ.objs h2 hnd ho hoid
    subst hoa
    by_cases hx : (clearTags o).oid = aid
    · simp [h3, clearTags, gidTruthy, hx]
    · simp [h3, clearTags, gidTruthy, hx]
  · by_cases hg : o.group = none
    · simp [hg, clearTags, gidTruthy, hoid]
    · simp [hg, clearTags, gidTruthy, hoid]

/-- Witness for C10 on concrete data. -/
theorem c10_witness :
    doneExec stExDone =
      ({ stExDone with
          objs := stExDone.objs.map fun o => if o.group = none then clearTags o else o },
       .ok ()) :=
  c10_done_untagged_active stExDone 0 objEx rfl (by with_unfolding_all decide) rfl
    (by decide)

/-- C8: a source with no animation on either channel makes Recreate fail
with the no-animation error before any mutation: the returned state is the
input state unchanged (no group id stamped, no container destroyed or
created, no duplicate made). -/
theorem c8_no_animation_error :
    ∀ (σ : BState) (s : AODSettings) (ug : ℕ → String) (u : ℕ → ℚ)
      (radians : ℚ → ℚ) (e2q : ℚ × ℚ × ℚ → ℚ × ℚ × ℚ × ℚ) (aid : ℕ) (src : Obj),
      σ.active = some aid →
      findObj σ.objs aid = some src →
      hasAnyAction src = false →
      recreate σ s ug u radians e2q = (σ, .error .noAnimation) := by
  intro σ s ug u radians e2q aid src h1 h2 h3
  simp [recreate, h1, h2, h3]

/-- Witness for C8 on concrete data. -/
theorem c8_witness :
    recreate stExNoAnim sEx ugEx uEx radEx e2qEx = (stExNoAnim, .error .noAnimation) :=
  c8_no_animation_error stExNoAnim sEx ugEx uEx radEx e2qEx 0 objExNoAnim rfl
    (by with_unfolding_all decide) rfl

lemma neutralDeltas_clear (o : Obj) : neutralDeltas (clearDeltaTransforms o) := by
  unfold clearDeltaTransforms neutralDeltas
  by_cases h : o.rotationMode = "QUATERNION" ∨ o.rotationMode = "AXIS_ANGLE" <;> simp [h]

lemma neutralDeltas_objActionUpdate (o : Obj) (a? : Option Act) :
    neutralDeltas { o with objAction := a? } ↔ neutralDeltas o :=
  Iff.rfl

lemma neutralDeltas_setSkAction (o : Obj) (a? : Option Act) :
    neutralDeltas (setSkAction o a?) ↔ neutralDeltas o := by
  unfold setSkAction
  split <;> exact Iff.rfl

lemma neutralDeltas_attachActions (d : Obj) (actObj actSk : Option Act) :
    neutralDeltas (attachActions d actObj actSk) ↔ neutralDeltas d := by
  unfold attachActions
  split
  · rw [neutralDeltas_setSkAction]
    exact neutralDeltas_objActionUpdate d actObj
  · exact neutralDeltas_objActionUpdate d actObj

lemma buildDup_neutral (src : Obj) (baseObj baseSk : Option Act) (s : AODSettings)
    (gid : String) (u : ℕ → ℚ) (radians : ℚ → ℚ) (e2q : ℚ × ℚ × ℚ → ℚ × ℚ × ℚ × ℚ)
    (i k oid : ℕ) (h : s.add_randomness = false) :
    neutralDeltas (buildDup src baseObj baseSk s gid u radians e2q i k oid).1 := by
  unfold buildDup
  simp only [deltaAndJitter, h, Bool.false_eq_true, if_false]
  rw [neutralDeltas_attachActions]
  exact neutralDeltas_clear _

lemma buildDups_neutral (src : Obj) (baseObj baseSk : Option Act) (s : AODSettings)
    (gid : String) (u : ℕ → ℚ) (radians : ℚ → ℚ) (e2q : ℚ × ℚ × ℚ → ℚ × ℚ × ℚ × ℚ)
    (h : s.add_randomness = false) :
    ∀ (n i k oid : ℕ), ∀ o ∈ buildDups src baseObj baseSk s gid u radians e2q i n k oid,
      neutralDeltas o := by
  intro n
  induction n with
  | zero => intro i k oid o ho; cases ho
  | succ m ih =>
    intro i k oid o ho
    rcases List.mem_cons.mp ho with rfl | ho'
    · exact buildDup_neutral src baseObj baseSk s gid u radians e2q i k oid h
    · exact ih (i + 1) _ (oid + 1) o ho'

lemma ensureGroup_oid (σ : BState) (src : Obj) (ug : ℕ → String) :
    (ensureGroupForSource σ src ug).2.1.oid = src.oid := by
  unfold ensureGroupForSource
  split <;> rfl

lemma setSkAction_oid (o : Obj) (a? : Option Act) : (setSkAction o a?).oid = o.oid := by
  unfold setSkAction
  split <;> rfl

lemma applyCyclesToOwnActions_oid (s : AODSettings) (o : Obj) :
    (applyCyclesToOwnActions s o).oid = o.oid := by
  simp only [applyCyclesToOwnActions]
  split
  · split
    · rw [setSkAction_oid]
    · rfl
  · rfl

lemma mem_replaceObj_oid {l : List Obj} {aid : ℕ} {v o' : Obj} (hv : v.oid = aid)
    (h : o' ∈ replaceObj l aid v) : ∃ w ∈ l, w.oid = o'.oid := by
  obtain ⟨w, hw, hwe⟩ := List.mem_map.mp h
  by_cases hc : w.oid = aid
  · refine ⟨w, hw, ?_⟩
    rw [if_pos hc] at hwe
    rw [← hwe, hv, hc]
  · refine ⟨w, hw, ?_⟩
    rw [if_neg hc] at hwe
    rw [hwe]

lemma mem_ensureGroup_objs {σ : BState} {src : Obj} {ug : ℕ → String} {o' : Obj}
    (h : o' ∈ (ensureGroupForSource σ src ug).2.2.objs) : ∃ w ∈ σ.objs, w.oid = o'.oid := by
  have halt : (ensureGroupForSource σ src ug).2.2.objs = σ.objs ∨
      (ensureGroupForSource σ src ug).2.2.objs =
        replaceObj σ.objs src.oid (ensureGroupForSource σ src ug).2.1 := by
    unfold ensureGroupForSource
    split
    · exact Or.inl rfl
    · exact Or.inr rfl
  rcases halt with he | he
  · rw [he] at h
    exact ⟨o', h, rfl⟩
  · rw [he] at h
    exact mem_replaceObj_oid (ensureGroup_oid σ src ug) h

lemma mem_hardDelete_objs {g : String} {objs : List Obj} {colls : List Coll} {o' : Obj}
    (h : o' ∈ (hardDeleteByGid g objs colls).2.1) : o' ∈ objs := by
  unfold hardDeleteByGid at h
  split at h
  · exact h
  · exact (List.mem_filter.mp h).1

/-- C9: with the add-randomness flag off, the perturbation step always
resets the duplicate to a neutral delta perturbation with zero time jitter,
whatever the spec ranges and previous perturbation were; consequently every
object Recreate creates (any object of the result state whose id did not
exist in the input state) carries a neutral delta perturbation. -/
theorem c9_randomness_off_neutral :
    (∀ (o : Obj) (s : AODSettings) (u : ℕ → ℚ) (radians : ℚ → ℚ)
        (e2q : ℚ × ℚ × ℚ → ℚ × ℚ × ℚ × ℚ) (k : ℕ),
        s.add_randomness = false →
          deltaAndJitter o s u radians e2q k = (clearDeltaTransforms o, 0, k) ∧
          neutralDeltas (clearDeltaTransforms o)) ∧
    (∀ (σ : BState) (s : AODSettings) (ug : ℕ → String) (u : ℕ → ℚ)
        (radians : ℚ → ℚ) (e2q : ℚ × ℚ × ℚ → ℚ × ℚ × ℚ × ℚ),
        s.add_randomness = false →
          ∀ o ∈ (recreate σ s ug u radians e2q).1.objs,
            (∀ o0 ∈ σ.objs, o0.oid ≠ o.oid) → neutralDeltas o) := by
  constructor
  · intro o s u radians e2q k h
    refine ⟨?_, neutralDeltas_clear o⟩
    simp [deltaAndJitter, h]
  · intro σ s ug u radians e2q h o hmem hfresh
    unfold recreate at hmem
    cases hA : σ.active with
    | none =>
      simp only [hA] at hmem
      exact absurd rfl (hfresh o hmem)
    | some aid =>
      simp only [hA] at hmem
      cases hF : findObj σ.objs aid with
      | none =>
        simp only [hF] at hmem
        exact absurd rfl (hfresh o hmem)
      | some src =>
        simp only [hF] at hmem
        by_cases hAct : hasAnyAction src = true
        · rw [if_neg (by simp [hAct])] at hmem
          unfold recreateCore at hmem
          simp only [List.mem_append] at hmem
          rcases hmem with hmem | hmem
          · exfalso
            have hsrc := findObj_some hF
            have hcover : ∃ w ∈ σ.objs, w.oid = o.oid := by
              split at hmem
              · obtain ⟨w2, hw2, hw2e⟩ := mem_replaceObj_oid
                  (by rw [applyCyclesToOwnActions_oid, ensureGroup_oid, hsrc.1]) hmem
                obtain ⟨w, hw, hwe⟩ := mem_ensureGroup_objs (mem_hardDelete_objs hw2)
                exact ⟨w, hw, by rw [hwe, hw2e]⟩
              · exact mem_ensureGroup_objs (mem_hardDelete_objs hmem)
            obtain ⟨w, hw, hwe⟩ := hcover
            exact hfresh w hw hwe
          · exact buildDups_neutral _ _ _ s _ u radians e2q h s.copies 1 0 σ.nextOid o hmem
        · rw [if_pos (by simpa using hAct)] at hmem
          exact absurd rfl (hfresh o hmem)

/-- Witness for C9 on concrete data: the perturbation step on an object with
stale non-neutral deltas, under settings with non-trivial random ranges but
randomness off, yields the cleared object, zero jitter, and a neutral
result. -/
theorem c9_witness :
    deltaAndJitter objEx sEx uEx radEx e2qEx 0 = (clearDeltaTransforms objEx, 0, 0) ∧
    neutralDeltas (clearDeltaTransforms objEx) :=
  c9_randomness_off_neutral.1 objEx sEx uEx radEx e2qEx 0 rfl

lemma clearDeltaTransforms_oid (o : Obj) : (clearDeltaTransforms o).oid = o.oid := by
  simp only [clearDeltaTransforms]
  split <;> rfl

lemma applyRandomDeltas_oid (o : Obj) (s : AODSettings) (u : ℕ → ℚ) (radians : ℚ → ℚ)
    (e2q : ℚ × ℚ × ℚ → ℚ × ℚ × ℚ × ℚ) (k : ℕ) :
    (applyRandomDeltas o s u radians e2q k).1.oid = o.oid := by
  simp only [applyRandomDeltas]
  split
  · rw [clearDeltaTransforms_oid]
  · split <;> simp [clearDeltaTransforms_oid]

lemma deltaAndJitter_oid (o : Obj) (s : AODSettings) (u : ℕ → ℚ) (radians : ℚ → ℚ)
    (e2q : ℚ × ℚ × ℚ → ℚ × ℚ × ℚ × ℚ) (k : ℕ) :
    (deltaAndJitter o s u radians e2q k).1.oid = o.oid := by
  simp only [deltaAndJitter]
  split
  · rw [applyRandomDeltas_oid]
  · rw [clearDeltaTransforms_oid]

lemma attachActions_oid (d : Obj) (actObj actSk : Option Act) :
    (attachActions d actObj actSk).oid = d.oid := by
  simp only [attachActions]
  split
  · rw [setSkAction_oid]
  · rfl

lemma dupBase_oid (src : Obj) (baseObj baseSk : Option Act) (gid : String) (i oid : ℕ) :
    (dupBase src baseObj baseSk gid i oid).1.oid = oid := by
  simp only [dupBase]
  split
  · rw [setSkAction_oid]
  · rfl

lemma buildDup_oid (src : Obj) (baseObj baseSk : Option Act) (s : AODSettings) (gid : String)
    (u : ℕ → ℚ) (radians : ℚ → ℚ) (e2q : ℚ × ℚ × ℚ → ℚ × ℚ × ℚ × ℚ) (i k oid : ℕ) :
    (buildDup src baseObj baseSk s gid u radians e2q i k oid).1.oid = oid := by
  simp only [buildDup]
  rw [attachActions_oid, deltaAndJitter_oid, dupBase_oid]

lemma buildDups_length (src : Obj) (baseObj baseSk : Option Act) (s : AODSettings)
    (gid : String) (u : ℕ → ℚ) (radians : ℚ → ℚ) (e2q : ℚ × ℚ × ℚ → ℚ × ℚ × ℚ × ℚ) :
    ∀ (n i k oid : ℕ), (buildDups src baseObj baseSk s gid u radians e2q i n k oid).length = n := by
  intro n
  induction n with
  | zero => intro i k oid; rfl
  | succ m ih =>
    intro i k oid
    simp only [buildDups, List.length_cons, ih]

lemma buildDups_map_oid (src : Obj) (baseObj baseSk : Option Act) (s : AODSettings)
    (gid : String) (u : ℕ → ℚ) (radians : ℚ → ℚ) (e2q : ℚ × ℚ × ℚ → ℚ × ℚ × ℚ × ℚ) :
    ∀ (n i k oid : ℕ),
      (buildDups src baseObj baseSk s gid u radians e2q i n k oid).map (fun d => d.oid) =
        List.range' oid n := by
  intro n
  induction n with
  | zero => intro i k oid; rfl
  | succ m ih =>
    intro i k oid
    simp only [buildDups, List.map_cons]
    rw [buildDup_oid, ih]
    rfl

lemma replaceObj_length (l : List Obj) (aid : ℕ) (v : Obj) :
    (replaceObj l aid v).length = l.length :=
  List.length_map l _

lemma findObj_replaceObj {l : List Obj} {aid : ℕ} {v w : Obj} (hv : v.oid = aid)
    (h : findObj l aid = some w) : findObj (replaceObj l aid v) aid = some v := by
  induction l with
  | nil => simp [findObj] at h
  | cons y ys ih =>
    simp only [findObj, replaceObj, List.map_cons, List.find?] at h ⊢
    by_cases hy : y.oid = aid
    · rw [if_pos hy]
      simp [hv]
    · rw [if_neg hy]
      rw [show (y.oid == aid) = false by simpa using hy] at h ⊢
      exact ih h

lemma findObj_append_left {l1 l2 : List Obj} {aid : ℕ} {w : Obj}
    (h : findObj l1 aid = some w) : findObj (l1 ++ l2) aid = some w := by
  simp only [findObj] at h ⊢
  rw [List.find?_append, h]
  rfl

lemma mem_replaceObj_oid_lt {l : List Obj} {aid N : ℕ} {v : Obj}
    (hall : ∀ o ∈ l, o.oid < N) (hv : v.oid < N) :
    ∀ o' ∈ replaceObj l aid v, o'.oid < N := by
  intro o' h
  obtain ⟨w, hw, hwe⟩ := List.mem_map.mp h
  by_cases hc : w.oid = aid
  · rw [if_pos hc] at hwe
    rw [← hwe]
    exact hv
  · rw [if_neg hc] at hwe
    rw [← hwe]
    exact hall w hw

lemma find?_filter_of_find? {α : Type} {p q : α → Bool} {l : List α} {a : α}
    (h : l.find? p = some a) (hq : q a = true) : (l.filter q).find? p = some a := by
  induction l with
  | nil => simp at h
  | cons y ys ih =>
    rw [List.find?_cons] at h
    rcases hp : p y with _ | _
    · rw [hp] at h
      rw [List.filter_cons]
      rcases hqy : q y with _ | _
      · simp only [Bool.false_eq_true, if_false]
        exact ih h
      · simp only [if_true]
        rw [List.find?_cons, hp]
        exact ih h
    · rw [hp] at h
      have hay : y = a := by simpa using h
      subst hay
      rw [List.filter_cons, if_pos hq, List.find?_cons, hp]

lemma findCollByGid_none {colls : List Coll} {g : String}
    (h : ∀ c ∈ colls, c.group ≠ some g) : findCollByGid colls g = none := by
  refine List.find?_eq_none.mpr fun c hc => ?_
  simpa using h c hc

lemma findCollByGid_append_singleton {l1 : List Coll} {c : Coll} {g : String}
    (h : ∀ c' ∈ l1, c'.group ≠ some g) (hc : c.group = some g) :
    findCollByGid (l1 ++ [c]) g = some c := by
  have h0 : List.find? (fun c => c.group == some g) l1 = none := findCollByGid_none h
  unfold findCollByGid
  rw [List.find?_append, h0]
  simp [List.find?, hc]

lemma removeFirstCollByGid_append {l1 l2 : List Coll} {g : String}
    (h : ∀ c ∈ l1, c.group ≠ some g) :
    removeFirstCollByGid g (l1 ++ l2) = l1 ++ removeFirstCollByGid g l2 := by
  induction l1 with
  | nil => rfl
  | cons y ys ih =>
    have hy : ¬ y.group = some g := h y (List.mem_cons_self y ys)
    simp only [List.cons_append, removeFirstCollByGid, if_neg hy, List.append_eq]
    rw [ih fun c hc => h c (List.mem_cons_of_mem y hc)]

lemma removeFirstCollByGid_singleton {c : Coll} {g : String} (hc : c.group = some g) :
    removeFirstCollByGid g [c] = [] := by
  simp [removeFirstCollByGid, hc]

lemma hardDeleteByGid_of_none {g : String} {objs : List Obj} {colls : List Coll}
    (h : findCollByGid colls g = none) :
    hardDeleteByGid g objs colls = (0, objs, colls) := by
  simp [hardDeleteByGid, h]

lemma setSkAction_group (o : Obj) (a? : Option Act) : (setSkAction o a?).group = o.group := by
  unfold setSkAction
  split <;> rfl

lemma setSkAction_objAction (o : Obj) (a? : Option Act) :
    (setSkAction o a?).objAction = o.objAction := by
  unfold setSkAction
  split <;> rfl

lemma applyCyclesToOwnActions_group (s : AODSettings) (o : Obj) :
    (applyCyclesToOwnActions s o).group = o.group := by
  simp only [applyCyclesToOwnActions]
  split
  · split
    · rw [setSkAction_group]
    · rfl
  · rfl

lemma hasObjAction_applyCyclesToOwnActions (s : AODSettings) (o : Obj) :
    hasObjAction (applyCyclesToOwnActions s o) = hasObjAction o := by
  simp only [applyCyclesToOwnActions, hasObjAction]
  split
  · split
    · rw [setSkAction_objAction]
      simp
    · simp
  · simp

lemma hasSkAction_applyCyclesToOwnActions (s : AODSettings) (o : Obj) :
    hasSkAction (applyCyclesToOwnActions s o) = hasSkAction o := by
  rcases hd : o.data with _ | ⟨skopt⟩
  · simp [applyCyclesToOwnActions, hasSkAction, getShapekeyData, setSkAction, hd]
  · rcases skopt with _ | ⟨aopt⟩
    · simp [applyCyclesToOwnActions, hasSkAction, getShapekeyData, setSkAction, hd]
    · rcases aopt with _ | a
      · simp [applyCyclesToOwnActions, hasSkAction, getShapekeyData, setSkAction, hd]
      · simp [applyCyclesToOwnActions, hasSkAction, getShapekeyData, setSkAction, hd]

lemma hasAnyAction_applyCyclesToOwnActions (s : AODSettings) (o : Obj) :
    hasAnyAction (applyCyclesToOwnActions s o) = hasAnyAction o := by
  unfold hasAnyAction
  rw [hasObjAction_applyCyclesToOwnActions, hasSkAction_applyCyclesToOwnActions]

lemma ensureGroup_fresh {σ : BState} {src : Obj} {ug : ℕ → String} (h : src.group = none) :
    ensureGroupForSource σ src ug =
      (ug σ.nextGid,
       { src with group := some (ug σ.nextGid), isSource := some true },
       { σ with
          objs := replaceObj σ.objs src.oid
            { src with group := some (ug σ.nextGid), isSource := some true }
          nextGid := σ.nextGid + 1 }) := by
  simp [ensureGroupForSource, gidTruthy, h]

lemma ensureGroup_existing {σ : BState} {src : Obj} {ug : ℕ → String} {g : String}
    (h : src.group = some g) (hne : g ≠ "") :
    ensureGroupForSource σ src ug = (g, src, σ) := by
  simp [ensureGroupForSource, gidTruthy, h, hne]

lemma recreate_fresh_run (σ : BState) (s : AODSettings) (ug : ℕ → String) (u : ℕ → ℚ)
    (radians : ℚ → ℚ) (e2q : ℚ × ℚ × ℚ → ℚ × ℚ × ℚ × ℚ) (aid : ℕ) (src : Obj)
    (hA : σ.active = some aid) (hF : findObj σ.objs aid = some src)
    (hAct : hasAnyAction src = true) (hg0 : src.group = none)
    (hcoll : ∀ c ∈ σ.colls, c.group ≠ some (ug σ.nextGid)) :
    recreate σ s ug u radians e2q =
      (let g := ug σ.nextGid
       let src1 : Obj := { src with group := some g, isSource := some true }
       let src2 := if s.apply_to_original then applyCyclesToOwnActions s src1 else src1
       let objs1 := replaceObj σ.objs src.oid src1
       let objs3 := if s.apply_to_original then replaceObj objs1 aid src2 else objs1
       let dups := buildDups src2 src2.objAction
          (if hasSkAction src then (getShapekeyData src2).bind (fun sk => sk.action) else none)
          s g u radians e2q 1 s.copies 0 σ.nextOid
       ({ nextOid := σ.nextOid + s.copies
          nextGid := σ.nextGid + 1
          objs := objs3 ++ dups
          colls := σ.colls ++ [{ name := desiredCollName src, group := some g,
                                 objIds := dups.map (fun d => d.oid) }]
          active := σ.active
          selected := σ.selected },
        .ok (0, s.copies))) := by
  simp only [recreate, hA, hF]
  rw [if_neg (by simp [hAct])]
  simp only [recreateCore]
  rw [ensureGroup_fresh hg0]
  simp only
  rw [hardDeleteByGid_of_none (findCollByGid_none hcoll)]
  simp only
  rw [hA]

lemma recreate_existing_run (σ : BState) (s : AODSettings) (ug : ℕ → String) (u : ℕ → ℚ)
    (radians : ℚ → ℚ) (e2q : ℚ × ℚ × ℚ → ℚ × ℚ × ℚ × ℚ) (aid : ℕ) (src : Obj) (g : String)
    (l1 : List Coll) (c0 : Coll)
    (hA : σ.active = some aid) (hF : findObj σ.objs aid = some src)
    (hAct : hasAnyAction src = true) (hg : src.group = some g) (hne : g ≠ "")
    (hcolls : σ.colls = l1 ++ [c0]) (hl1 : ∀ c ∈ l1, c.group ≠ some g)
    (hc0 : c0.group = some g) :
    recreate σ s ug u radians e2q =
      (let src2 := if s.apply_to_original then applyCyclesToOwnActions s src else src
       let objs2 := σ.objs.filter (fun o => !(c0.objIds.contains o.oid))
       let objs3 := if s.apply_to_original then replaceObj objs2 aid src2 else objs2
       let dups := buildDups src2 src2.objAction
          (if hasSkAction src then (getShapekeyData src2).bind (fun sk => sk.action) else none)
          s g u radians e2q 1 s.copies 0 σ.nextOid
       ({ nextOid := σ.nextOid + s.copies
          nextGid := σ.nextGid
          objs := objs3 ++ dups
          colls := l1 ++ [{ name := desiredCollName src, group := some g,
                            objIds := dups.map (fun d => d.oid) }]
          active := some aid
          selected := σ.selected },
        .ok (σ.objs.length - (σ.objs.filter (fun o => !(c0.objIds.contains o.oid))).length,
             s.copies))) := by
  have hhd : hardDeleteByGid g σ.objs (l1 ++ [c0]) =
      (σ.objs.length - (σ.objs.filter fun o => !(c0.objIds.contains o.oid)).length,
       σ.objs.filter (fun o => !(c0.objIds.contains o.oid)), l1) := by
    simp only [hardDeleteByGid, findCollByGid_append_singleton hl1 hc0]
    rw [removeFirstCollByGid_append hl1, removeFirstCollByGid_singleton hc0, List.append_nil]
  simp only [recreate, hA, hF]
  rw [if_neg (by simp [hAct])]
  simp only [recreateCore]
  rw [ensureGroup_existing hg hne]
  simp only [hcolls, hhd]
  rw [hA]

lemma fresh_run_facts (σ : BState) (s : AODSettings) (ug : ℕ → String) (u : ℕ → ℚ)
    (radians : ℚ → ℚ) (e2q : ℚ × ℚ × ℚ → ℚ × ℚ × ℚ × ℚ) (aid : ℕ) (src : Obj)
    (hA : σ.active = some aid) (hF : findObj σ.objs aid = some src)
    (hAct : hasAnyAction src = true) (hg0 : src.group = none)
    (hcoll : ∀ c ∈ σ.colls, c.group ≠ some (ug σ.nextGid))
    (hWF : ∀ o ∈ σ.objs, o.oid < σ.nextOid) :
    ∃ (objs3 dups1 : List Obj) (srcA : Obj),
      recreate σ s ug u radians e2q =
        ({ nextOid := σ.nextOid + s.copies
           nextGid := σ.nextGid + 1
           objs := objs3 ++ dups1
           colls := σ.colls ++ [{ name := desiredCollName src, group := some (ug σ.nextGid),
                                  objIds := dups1.map (fun d => d.oid) }]
           active := some aid
           selected := σ.selected }, .ok (0, s.copies)) ∧
      findObj objs3 aid = some srcA ∧
      srcA.group = some (ug σ.nextGid) ∧
      hasAnyAction srcA = true ∧
      objs3.length = σ.objs.length ∧
      (∀ o ∈ objs3, o.oid < σ.nextOid) ∧
      dups1.length = s.copies ∧
      dups1.map (fun d => d.oid) = List.range' σ.nextOid s.copies := by
  have hsoid : src.oid = aid := (findObj_some hF).1
  have haid_lt : aid < σ.nextOid := hsoid ▸ hWF src (findObj_some hF).2
  have hrun := recreate_fresh_run σ s ug u radians e2q aid src hA hF hAct hg0 hcoll
  simp only [hA] at hrun
  set src1 : Obj := { src with group := some (ug σ.nextGid), isSource := some true } with hsrc1
  set srcA : Obj := (if s.apply_to_original = true then applyCyclesToOwnActions s src1 else src1)
    with hsrcA
  set objs1 : List Obj := replaceObj σ.objs src.oid src1 with hobjs1
  set objs3 : List Obj := (if s.apply_to_original = true then replaceObj objs1 aid srcA else objs1)
    with hobjs3
  set baseSk : Option Act := (if hasSkAction src = true then
    (getShapekeyData srcA).bind (fun sk => sk.action) else none) with hbaseSk
  set dups1 : List Obj := buildDups srcA srcA.objAction baseSk s (ug σ.nextGid) u radians e2q
    1 s.copies 0 σ.nextOid with hdups1
  have hsrc1oid : src1.oid = aid := by rw [hsrc1]; exact hsoid
  have hFind1 : findObj objs1 aid = some src1 := by
    rw [hobjs1, hsoid]
    exact findObj_replaceObj hsrc1oid hF
  by_cases hap : s.apply_to_original = true
  · simp only [hap, if_true] at hsrcA hobjs3
    have hsrcAoid : srcA.oid = aid := by
      rw [hsrcA, applyCyclesToOwnActions_oid]
      exact hsrc1oid
    refine ⟨objs3, dups1, srcA, hrun, ?_, ?_, ?_, ?_, ?_, ?_, ?_⟩
    · rw [hobjs3]
      exact findObj_replaceObj hsrcAoid hFind1
    · rw [hsrcA, applyCyclesToOwnActions_group, hsrc1]
    · rw [hsrcA, hasAnyAction_applyCyclesToOwnActions, hsrc1]
      exact hAct
    · rw [hobjs3, replaceObj_length, hobjs1, replaceObj_length]
    · rw [hobjs3]
      refine mem_replaceObj_oid_lt ?_ ?_
      · rw [hobjs1]
        exact mem_replaceObj_oid_lt hWF (by rw [hsrc1oid]; exact haid_lt)
      · rw [hsrcAoid]
        exact haid_lt
    · rw [hdups1]
      exact buildDups_length _ _ _ _ _ _ _ _ s.copies 1 0 σ.nextOid
    · rw [hdups1]
      exact buildDups_map_oid _ _ _ _ _ _ _ _ s.copies 1 0 σ.nextOid
  · simp only [hap, Bool.false_eq_true, if_false] at hsrcA hobjs3
    refine ⟨objs3, dups1, srcA, hrun, ?_, ?_, ?_, ?_, ?_, ?_, ?_⟩
    · rw [hobjs3, hsrcA]
      exact hFind1
    · rw [hsrcA, hsrc1]
    · rw [hsrcA, hsrc1]
      exact hAct
    · rw [hobjs3, hobjs1, replaceObj_length]
    · rw [hobjs3, hobjs1]
      exact mem_replaceObj_oid_lt hWF (by rw [hsrc1oid]; exact haid_lt)
    · rw [hdups1]
      exact buildDups_length _ _ _ _ _ _ _ _ s.copies 1 0 σ.nextOid
    · rw [hdups1]
      exact buildDups_map_oid _ _ _ _ _ _ _ _ s.copies 1 0 σ.nextOid

lemma contains_eq_false {l : List ℕ} {a : ℕ} (h : a ∉ l) : l.contains a = false := by
  rcases hb : l.contains a with _ | _
  · rfl
  · exact absurd (List.elem_iff.mp hb) h

lemma contains_eq_true_of_mem {l : List ℕ} {a : ℕ} (h : a ∈ l) : l.contains a = true :=
  List.elem_iff.mpr h

lemma second_run_conclusions (s : AODSettings) (ug : ℕ → String) (u2 : ℕ → ℚ)
    (radians2 : ℚ → ℚ) (e2q2 : ℚ × ℚ × ℚ → ℚ × ℚ × ℚ × ℚ) (aid : ℕ) (g nm : String)
    (colls0 : List Coll) (objs3 dups1 : List Obj) (srcA : Obj)
    (N nextG : ℕ) (sel : List ℕ) (origLen : ℕ)
    (hne : g ≠ "")
    (hcoll0 : ∀ c ∈ colls0, c.group ≠ some g)
    (hFindA : findObj objs3 aid = some srcA)
    (hgA : srcA.group = some g)
    (hActA : hasAnyAction srcA = true)
    (hlen3 : objs3.length = origLen)
    (hbound3 : ∀ o ∈ objs3, o.oid < N)
    (hoids1 : dups1.map (fun d => d.oid) = List.range' N s.copies) :
    let σ1 : BState :=
      { nextOid := N + s.copies
        nextGid := nextG
        objs := objs3 ++ dups1
        colls := colls0 ++ [{ name := nm, group := some g,
                              objIds := dups1.map (fun d => d.oid) }]
        active := some aid
        selected := sel }
    (∃ d2 : ℕ, (recreate σ1 s ug u2 radians2 e2q2).2 = .ok (d2, s.copies)) ∧
    ((findObj (recreate σ1 s ug u2 radians2 e2q2).1.objs aid).map (fun o => o.group) =
      some (some g)) ∧
    (((recreate σ1 s ug u2 radians2 e2q2).1.colls.filter
        (fun c => c.group == some g)).length = 1) ∧
    (∀ c ∈ (recreate σ1 s ug u2 radians2 e2q2).1.colls, c.group = some g →
        c.objIds.length = s.copies) ∧
    ((recreate σ1 s ug u2 radians2 e2q2).1.objs.length = origLen + s.copies) := by
  intro σ1
  have hsrcAoid : srcA.oid = aid := (findObj_some hFindA).1
  have haid_lt : aid < N := hsrcAoid ▸ hbound3 srcA (findObj_some hFindA).2
  have hF1 : findObj σ1.objs aid = some srcA := findObj_append_left hFindA
  have hrun := recreate_existing_run σ1 s ug u2 radians2 e2q2 aid srcA g colls0
    { name := nm, group := some g, objIds := dups1.map (fun d => d.oid) }
    rfl hF1 hActA hgA hne rfl hcoll0 rfl
  simp only [] at hrun
  have hflt : (σ1.objs.filter fun o =>
      !(({ name := nm, group := some g, objIds := dups1.map (fun d => d.oid) } : Coll).objIds.contains o.oid)) = objs3 := by
    show ((objs3 ++ dups1).filter fun o => !((dups1.map (fun d => d.oid)).contains o.oid)) = objs3
    rw [List.filter_append]
    have h1 : (objs3.filter fun o => !((dups1.map (fun d => d.oid)).contains o.oid)) = objs3 := by
      refine List.filter_eq_self.mpr fun o ho => ?_
      rw [hoids1, contains_eq_false]
      · rfl
      · intro hm
        have := (List.mem_range'_1.mp hm).1
        have := hbound3 o ho
        omega
    have h2 : (dups1.filter fun o => !((dups1.map (fun d => d.oid)).contains o.oid)) = [] := by
      refine List.filter_eq_nil_iff.mpr fun d hd => ?_
      rw [contains_eq_true_of_mem (List.mem_map_of_mem _ hd)]
      simp
    rw [h1, h2, List.append_nil]
  rw [hflt] at hrun
  refine ⟨⟨_, by rw [hrun]⟩, ?_, ?_, ?_, ?_⟩
  · -- the source keeps the group id
    rw [hrun]
    simp only
    by_cases hap : s.apply_to_original = true
    · simp only [hap, if_true]
      have hfind2 : findObj (replaceObj objs3 aid (applyCyclesToOwnActions s srcA)) aid =
          some (applyCyclesToOwnActions s srcA) :=
        findObj_replaceObj (by rw [applyCyclesToOwnActions_oid]; exact hsrcAoid) hFindA
      rw [findObj_append_left hfind2]
      simp [applyCyclesToOwnActions_group, hgA]
    · simp only [hap, Bool.false_eq_true, if_false]
      rw [findObj_append_left hFindA]
      simp [hgA]
  · rw [hrun]
    simp only
    rw [List.filter_append]
    have h1 : (colls0.filter fun c => c.group == some g) = [] := by
      refine List.filter_eq_nil_iff.mpr fun c hc => ?_
      simpa using hcoll0 c hc
    rw [h1]
    simp
  · rw [hrun]
    simp only
    intro c hc hcg
    rcases List.mem_append.mp hc with hc0 | hc1
    · exact absurd hcg (hcoll0 c hc0)
    · have hceq := List.mem_singleton.mp hc1
      subst hceq
      simp only [List.length_map, buildDups_length]
  · rw [hrun]
    simp only
    rw [List.length_append]
    have hlen3' : (if s.apply_to_original = true
        then replaceObj objs3 aid
          (if s.apply_to_original = true then applyCyclesToOwnActions s srcA else srcA)
        else objs3).length = origLen := by
      by_cases hap : s.apply_to_original = true
      · simp only [hap, if_true]
        rw [replaceObj_length, hlen3]
      · simp only [hap, Bool.false_eq_true, if_false]
        exact hlen3
    rw [buildDups_length]
    omega

/-- C3: running Recreate twice in succession on a source with no prior
group tag (with the freshly drawn uuid unused by any collection, and
well-formed object ids): both calls succeed; the group id stamped on the
source by the first call is still its tag after the second call (the second
call reuses it instead of allocating a new one); after the second call
exactly one collection carries the group id and it holds exactly
`s.copies` member entities; and the total object count is the original
count plus `s.copies` — the first call's duplicates do not accumulate. -/
theorem c3_recreate_identity_idempotent :
    ∀ (σ : BState) (s : AODSettings) (ug : ℕ → String) (u u2 : ℕ → ℚ)
      (radians radians2 : ℚ → ℚ) (e2q e2q2 : ℚ × ℚ × ℚ → ℚ × ℚ × ℚ × ℚ)
      (aid : ℕ) (src : Obj),
      σ.active = some aid →
      findObj σ.objs aid = some src →
      hasAnyAction src = true →
      src.group = none →
      ug σ.nextGid ≠ "" →
      (∀ c ∈ σ.colls, c.group ≠ some (ug σ.nextGid)) →
      (∀ o ∈ σ.objs, o.oid < σ.nextOid) →
      (recreate σ s ug u radians e2q).2 = .ok (0, s.copies) ∧
      (∃ d2 : ℕ, (recreate (recreate σ s ug u radians e2q).1 s ug u2 radians2 e2q2).2 =
        .ok (d2, s.copies)) ∧
      ((findObj (recreate σ s ug u radians e2q).1.objs aid).map (fun o => o.group) =
        some (some (ug σ.nextGid))) ∧
      ((findObj (recreate (recreate σ s ug u radians e2q).1 s ug u2 radians2 e2q2).1.objs
          aid).map (fun o => o.group) = some (some (ug σ.nextGid))) ∧
      (((recreate (recreate σ s ug u radians e2q).1 s ug u2 radians2 e2q2).1.colls.filter
          (fun c => c.group == some (ug σ.nextGid))).length = 1) ∧
      (∀ c ∈ (recreate (recreate σ s ug u radians e2q).1 s ug u2 radians2 e2q2).1.colls,
          c.group = some (ug σ.nextGid) → c.objIds.length = s.copies) ∧
      ((recreate (recreate σ s ug u radians e2q).1 s ug u2 radians2 e2q2).1.objs.length =
        σ.objs.length + s.copies) := by
  intro σ s ug u u2 radians radians2 e2q e2q2 aid src hA hF hAct hg0 hne hcoll hWF
  obtain ⟨objs3, dups1, srcA, heq1, hFindA, hgA, hActA, hlen3, hbound3, hlen1, hoids1⟩ :=
    fresh_run_facts σ s ug u radians e2q aid src hA hF hAct hg0 hcoll hWF
  have h2 := second_run_conclusions s ug u2 radians2 e2q2 aid (ug σ.nextGid)
    (desiredCollName src) σ.colls objs3 dups1 srcA σ.nextOid (σ.nextGid + 1) σ.selected
    σ.objs.length hne hcoll hFindA hgA hActA hlen3 hbound3 hoids1
  simp only [] at h2
  have hstate : (recreate σ s ug u radians e2q).1 =
      ({ nextOid := σ.nextOid + s.copies
         nextGid := σ.nextGid + 1
         objs := objs3 ++ dups1
         colls := σ.colls ++ [{ name := desiredCollName src, group := some (ug σ.nextGid),
                                objIds := dups1.map (fun d => d.oid) }]
         active := some aid
         selected := σ.selected } : BState) := by
    rw [heq1]
  refine ⟨?_, ?_, ?_, ?_, ?_, ?_, ?_⟩
  · rw [heq1]
  · rw [hstate]
    exact h2.1
  · rw [hstate]
    show (findObj (objs3 ++ dups1) aid).map (fun o => o.group) = some (some (ug σ.nextGid))
    rw [findObj_append_left hFindA]
    simp [hgA]
  · rw [hstate]
    exact h2.2.1
  · rw [hstate]
    exact h2.2.2.1
  · rw [hstate]
    exact h2.2.2.2.1
  · rw [hstate]
    exact h2.2.2.2.2

/-- Witness for C3 on concrete data. -/
theorem c3_witness :
    (recreate stEx sEx ugEx uEx radEx e2qEx).2 = .ok (0, sEx.copies) ∧
    ((findObj (recreate (recreate stEx sEx ugEx uEx radEx e2qEx).1 sEx ugEx uEx radEx
        e2qEx).1.objs 0).map (fun o => o.group) = some (some (ugEx stEx.nextGid))) ∧
    (((recreate (recreate stEx sEx ugEx uEx radEx e2qEx).1 sEx ugEx uEx radEx
        e2qEx).1.colls.filter (fun c => c.group == some (ugEx stEx.nextGid))).length = 1) ∧
    ((recreate (recreate stEx sEx ugEx uEx radEx e2qEx).1 sEx ugEx uEx radEx
        e2qEx).1.objs.length = stEx.objs.length + sEx.copies) := by
  have h := c3_recreate_identity_idempotent stEx sEx ugEx uEx uEx radEx radEx e2qEx e2qEx
    0 objEx rfl (by with_unfolding_all decide) rfl rfl (by decide) (by decide) (by decide)
  exact ⟨h.1, h.2.2.2.1, h.2.2.2.2.1, h.2.2.2.2.2.2⟩

end AOD
